import Mathlib

/-!
Verification development for the DefaceIT video-blurring core
(src/video_blur_core.py, class VideoBlurrer).

The development shallowly embeds:
* the region-blur geometry (`blur_region`, lines 129-160) and the
  face-geometry rule of `process_frame` (lines 162-190);
* the pixelate filter (lines 152-155), with `cv2.resize` modelled as
  half-pixel-centre bilinear sampling (INTER_LINEAR downsample) and
  floor-index nearest sampling (INTER_NEAREST upsample) over exact
  rational arithmetic;
* the frame queue / batch writer (`_process_next_frame`, `_write_batch`);
* the asynchronous pipeline controller as a step machine over an explicit
  state record, one Lean function per Qt slot, with outward signals
  (`progress`, `error`, `finished`) recorded as an output list.

Python floats (`padding`, `pitch_shift`, the literals 0.1, 0.2, 0.5) are
modelled as exact rationals; numpy frames are modelled as a dimension
record plus a total pixel function.
-/

namespace DefaceIt

/-- Python `int(width * padding)` for an integer `width` and an exact
rational `padding`: truncation toward zero of `w * p`, computed on the
numerator and denominator (`w * p = (w * p.num) / p.den` exactly, and
`int()` truncates toward zero) so that concrete instances evaluate by
kernel reduction. -/
def pyMulTrunc (w : ℤ) (p : ℚ) : ℤ :=
  Int.sign (w * p.num) * (((w * p.num).natAbs / p.den : ℕ) : ℤ)

/-- The literal `0.1` of the source, as an exact rational. -/
def tenthQ : ℚ := ⟨1, 10, by decide, by decide⟩

/-- The literal `0.5` of the source, as an exact rational. -/
def halfQ : ℚ := ⟨1, 2, by decide, by decide⟩

/-- Line 40: `self.blur_strength = blur_strength if blur_strength % 2 == 1
else blur_strength + 1` (Python `%` on integers agrees with `Int.emod`
for the divisor 2). -/
def storedBlurStrength (n : ℤ) : ℤ := if n % 2 = 1 then n else n + 1

/-- The constructor state of `VideoBlurrer` that `blur_region` reads. -/
structure BlurrerConfig where
  blurStrength : ℤ
  blurType : String

/-- `VideoBlurrer.__init__` restricted to the blur configuration. -/
def initBlurrer (blur_strength : ℤ) (blur_type : String) : BlurrerConfig :=
  { blurStrength := storedBlurStrength blur_strength, blurType := blur_type }

/-- A bounding box `(x1, y1, x2, y2)` in pixel coordinates. -/
structure Box where
  x1 : ℤ
  y1 : ℤ
  x2 : ℤ
  y2 : ℤ
deriving DecidableEq, Repr

/-- A decoded frame: numpy array of shape `height × width × channels`,
modelled as dimensions plus a total pixel function (row, column, channel). -/
structure Frame where
  width : ℕ
  height : ℕ
  channels : ℕ
  data : ℤ → ℤ → ℕ → ℤ

/-- Lines 132-140 of `blur_region`: if `padding > 0`, grow the box by
`int(width*padding)` / `int(height*padding)` on each side, clamping to the
frame bounds. -/
def padBox (W H : ℕ) (b : Box) (padding : ℚ) : Box :=
  if 0 < padding then
    { x1 := max 0 (b.x1 - pyMulTrunc (b.x2 - b.x1) padding),
      y1 := max 0 (b.y1 - pyMulTrunc (b.y2 - b.y1) padding),
      x2 := min (W : ℤ) (b.x2 + pyMulTrunc (b.x2 - b.x1) padding),
      y2 := min (H : ℤ) (b.y2 + pyMulTrunc (b.y2 - b.y1) padding) }
  else b

/-- Lines 142-143 of `blur_region`: clamp to `[0, width] × [0, height]`. -/
def clampBox (W H : ℕ) (b : Box) : Box :=
  { x1 := max 0 b.x1, y1 := max 0 b.y1,
    x2 := min (W : ℤ) b.x2, y2 := min (H : ℤ) b.y2 }

/-- The sub-region actually addressed by `blur_region`: padding then the
final clamp (lines 132-143). -/
def blurBoxFinal (W H : ℕ) (b : Box) (padding : ℚ) : Box :=
  clampBox W H (padBox W H b padding)

/- ### Model of `cv2.resize` as used by the pixelate branch -/

/-- Floor of the half-pixel-centre source coordinate
`(i + 1/2) * n/m - 1/2 = ((2*i+1)*n - m) / (2*m)` used by INTER_LINEAR
when resizing a length-`n` axis to length `m` (here `m ≤ n`, so the
numerator is nonnegative and Nat division is the floor). -/
def srcFloor (n m i : ℕ) : ℕ := ((2 * i + 1) * n - m) / (2 * m)

/-- Fractional part of the same source coordinate. -/
def srcFrac (n m i : ℕ) : ℚ :=
  (((2 * i + 1) * n : ℕ) - (m : ℚ)) / (2 * m) - (srcFloor n m i : ℚ)

/-- One-axis linear interpolation at destination index `i` (source length
`n`, destination length `m`), with the right border replicated. -/
def lerp1 (n m : ℕ) (f : ℕ → ℚ) (i : ℕ) : ℚ :=
  (1 - srcFrac n m i) * f (srcFloor n m i) +
    srcFrac n m i * f (min (srcFloor n m i + 1) (n - 1))

/-- Rounding of an interpolated value back to an integer sample. -/
def roundQ (q : ℚ) : ℤ := ⌊q + 1 / 2⌋

/-- INTER_LINEAR downsample of one channel from `w × h` to `sw × sh`. -/
def downsampleChan (w h sw sh : ℕ) (f : ℕ → ℕ → ℤ) : ℕ → ℕ → ℤ :=
  fun j i =>
    roundQ (lerp1 h sh (fun y => lerp1 w sw (fun x => ((f y x : ℤ) : ℚ)) i) j)

/-- Lines 152-155: downsample to `(max 1 (w/10), max 1 (h/10))` with
INTER_LINEAR, then upsample back with INTER_NEAREST (source index
`x * sw / w`, floor). -/
def pixelateChan (w h : ℕ) (f : ℕ → ℕ → ℤ) : ℕ → ℕ → ℤ :=
  fun y x =>
    downsampleChan w h (max 1 (w / 10)) (max 1 (h / 10)) f
      (y * max 1 (h / 10) / h) (x * max 1 (w / 10) / w)

/-- The pixelate filter lifted to an integer-indexed ROI with channels. -/
def pixelateRoi (w h : ℕ) (roi : ℤ → ℤ → ℕ → ℤ) : ℤ → ℤ → ℕ → ℤ :=
  fun y x c => pixelateChan w h (fun j i => roi (j : ℤ) (i : ℤ) c) y.toNat x.toNat

/-- `frame[y1:y2, x1:x2]` as a function on ROI-local coordinates. -/
def Frame.roi (f : Frame) (b : Box) : ℤ → ℤ → ℕ → ℤ :=
  fun y x c => f.data (b.y1 + y) (b.x1 + x) c

/-- Lines 150-157: the blurred ROI. `cv2.GaussianBlur` is an external
capability, abstracted as the shape-preserving function `gauss` applied to
the stored (odd) kernel size; unknown blur kinds fall back to Gaussian. -/
def blurredRoi (gauss : ℤ → (ℤ → ℤ → ℕ → ℤ) → (ℤ → ℤ → ℕ → ℤ))
    (cfg : BlurrerConfig) (frame : Frame) (B : Box) : ℤ → ℤ → ℕ → ℤ :=
  if cfg.blurType = "gaussian" then gauss cfg.blurStrength (frame.roi B)
  else if cfg.blurType = "pixelate" then
    pixelateRoi (B.x2 - B.x1).toNat (B.y2 - B.y1).toNat (frame.roi B)
  else gauss cfg.blurStrength (frame.roi B)

/-- `blur_region` (lines 129-160): pad and clamp the box; skip degenerate
boxes; otherwise write the blurred ROI back over `[y1:y2, x1:x2]`. -/
def blurRegion (gauss : ℤ → (ℤ → ℤ → ℕ → ℤ) → (ℤ → ℤ → ℕ → ℤ))
    (cfg : BlurrerConfig) (frame : Frame) (bbox : Box) (padding : ℚ) : Frame :=
  let B := blurBoxFinal frame.width frame.height bbox padding
  if B.x2 ≤ B.x1 ∨ B.y2 ≤ B.y1 then frame
  else
    { frame with
      data := fun y x c =>
        if B.x1 ≤ x ∧ x < B.x2 ∧ B.y1 ≤ y ∧ y < B.y2 then
          blurredRoi gauss cfg frame B (y - B.y1) (x - B.x1) c
        else frame.data y x c }

/-- `self.face_padding = 0.2` (line 47), as an exact rational. -/
def facePadding : ℚ := ⟨1, 5, by decide, by decide⟩

/-- Lines 176-182: for a face-model detection of class 0, the upper half of
the box, widened by `int(width*0.1)` on each side with the widened ends
clamped to `[0, frame width]`. -/
def faceBox (W : ℕ) (b : Box) : Box :=
  { x1 := max 0 (b.x1 - pyMulTrunc (b.x2 - b.x1) tenthQ),
    y1 := b.y1,
    x2 := min (W : ℤ) (b.x2 + pyMulTrunc (b.x2 - b.x1) tenthQ),
    y2 := b.y1 + pyMulTrunc (b.y2 - b.y1) halfQ }

/-- One detected region: class id and bounding box (the detector itself is
an external capability; its outputs are inputs here). -/
structure Detection where
  cls : ℤ
  box : Box

/-- The per-detection body of `process_frame` (lines 175-188). -/
def processDetection (gauss : ℤ → (ℤ → ℤ → ℕ → ℤ) → (ℤ → ℤ → ℕ → ℤ))
    (cfg : BlurrerConfig) (frame : Frame) (modelType : String)
    (d : Detection) : Frame :=
  if modelType = "face" then
    if d.cls = 0 then
      blurRegion gauss cfg frame (faceBox frame.width d.box) facePadding
    else blurRegion gauss cfg frame d.box facePadding
  else if modelType = "license_plate" then
    blurRegion gauss cfg frame d.box tenthQ
  else frame

/-- `process_frame` (lines 162-190): fold the per-detection blur over each
model's detection list, in order. -/
def processFrame (gauss : ℤ → (ℤ → ℤ → ℕ → ℤ) → (ℤ → ℤ → ℕ → ℤ))
    (cfg : BlurrerConfig) (models : List (String × List Detection))
    (frame : Frame) : Frame :=
  models.foldl
    (fun fr m => m.2.foldl (fun fr2 d => processDetection gauss cfg fr2 m.1 d) fr)
    frame

/-- The region the code actually rewrites for a class-0 face detection:
`blur_region`'s padded clamp applied to the already-clamped face box. -/
def faceRegion (W H : ℕ) (b : Box) : Box :=
  blurBoxFinal W H (faceBox W b) facePadding

/-- Modelled from the claim wording (claim C3 / spec section 8): upper 50%
of the box height, widened by 10% of the box width each side, then expanded
by the face padding fraction, with the intersection with the frame bounds
taken only at the end. -/
def specFaceBox (W H : ℕ) (b : Box) (padding : ℚ) : Box :=
  let wx1 := b.x1 - pyMulTrunc (b.x2 - b.x1) tenthQ
  let wx2 := b.x2 + pyMulTrunc (b.x2 - b.x1) tenthQ
  let wy1 := b.y1
  let wy2 := b.y1 + pyMulTrunc (b.y2 - b.y1) halfQ
  clampBox W H
    { x1 := wx1 - pyMulTrunc (wx2 - wx1) padding,
      y1 := wy1 - pyMulTrunc (wy2 - wy1) padding,
      x2 := wx2 + pyMulTrunc (wx2 - wx1) padding,
      y2 := wy2 + pyMulTrunc (wy2 - wy1) padding }

end DefaceIt

namespace DefaceIt

/- ### Pipeline controller as a step machine

Each Qt slot of `VideoBlurrer` becomes a pure function from the mutable
object state to a new state plus the list of outward signals it emits, in
emission order.  Signal payloads (message strings) carry no information the
claims use and are elided; `cleanupRun` is an instrumentation marker placed
where `_cleanup()` is invoked, so that orderings between cleanup and
signal emissions are visible in the output list. -/

/-- Outward events: the `progress`/`error`/`finished` pyqtSignals plus the
`_cleanup()` marker. -/
inductive Sig
  | progress
  | error
  | finished (code : ℤ)
  | cleanupRun
deriving DecidableEq, Repr

/-- The filesystem paths the pipeline derives from `output_path` via
`Path.with_suffix` (string manipulation is external `pathlib`); they are
pairwise distinct, so abstract tokens are faithful. -/
inductive PathName
  | output        -- self.output_path
  | tempAudio     -- output_path with suffix ".temp_audio.wav"  (line 366)
  | shiftedAudio  -- temp audio with suffix ".shifted.wav"      (line 400)
  | fallbackRaw   -- output_path with suffix ".fallback_raw_.wav" (line 451)
  | finalMerge    -- output_path with suffix ".final.mp4"       (line 507)
deriving DecidableEq, Repr

/-- The mutable fields of the `VideoBlurrer` object that the pipeline
handlers read and write, plus an abstract filesystem (`fs`, the set of
existing files, as a list) and the instrumentation field `tempEver`
recording every path ever appended to `temp_files`. -/
structure PState where
  isCancelled : Bool := false
  currentStep : String := "init"
  tempFiles : List PathName := []
  tempEver : List PathName := []
  fs : List PathName := []
  capOpen : Bool := false
  procRunning : Bool := false
  frameQueue : List ℕ := []
  frameCount : ℕ := 0
  pitchShift : ℚ := 0
deriving Repr, DecidableEq

/-- The freshly constructed worker (all defaults; `temp_files = []`). -/
def init0 : PState := {}

/-- `_cleanup` (lines 587-596): delete every still-existing temp file,
empty `temp_files`, release the capture. -/
def cleanup (s : PState) : PState :=
  { s with fs := s.fs.filter (fun p => !(s.tempFiles.contains p)),
           tempFiles := [], capOpen := false }

/-- `start` + `_open_video` (lines 94-127).  `openOk` is the external
outcome of `cv2.VideoCapture(...).isOpened()`. -/
def startH (openOk : Bool) (s : PState) : PState × List Sig :=
  if s.isCancelled then (s, [Sig.finished 0])
  else
    let s1 := { s with currentStep := "open_video" }
    if openOk then
      ({ s1 with capOpen := true, currentStep := "process_frames",
                 procRunning := true },
       [Sig.progress, Sig.progress])
    else (s1, [Sig.progress, Sig.error, Sig.finished 1])

/-- `_process_next_frame` (lines 270-308).  `readOk` is the external
outcome of `cap.read()`; on success the processed frame's bytes are
appended to the back of `frame_queue` (line 290) and a progress message is
emitted every 5th frame. -/
def processNextFrameH (readOk : Bool) (s : PState) : PState × List Sig :=
  if s.isCancelled then (cleanup s, [Sig.cleanupRun, Sig.finished 0])
  else if readOk then
    ({ s with frameQueue := s.frameQueue ++ [s.frameCount],
              frameCount := s.frameCount + 1 },
     if (s.frameCount + 1) % 5 = 0 then [Sig.progress] else [])
  else
    ({ s with capOpen := false }, [Sig.progress])

/-- `_write_batch` (lines 310-331): when not cancelled and the encoder
process is still running, remove the first 5 queued frames and write them,
in order, to the subprocess; the written frames are returned. -/
def writeBatchH (s : PState) : PState × List ℕ :=
  if s.isCancelled || !s.procRunning then (s, [])
  else ({ s with frameQueue := s.frameQueue.drop 5 }, s.frameQueue.take 5)

/-- `_on_encoding_finished` (lines 333-349) together with the
`_merge_audio_async` body it invokes (lines 359-384): on success the temp
audio path is appended to `temp_files` and the extract subprocess is
spawned. -/
def encodingFinishedH (code : ℤ) (s : PState) : PState × List Sig :=
  if s.isCancelled then (cleanup s, [Sig.cleanupRun, Sig.finished 0])
  else if code ≠ 0 then (s, [Sig.error, Sig.finished code])
  else
    ({ s with currentStep := "merge_audio",
              tempFiles := s.tempFiles ++ [PathName.tempAudio],
              tempEver := s.tempEver ++ [PathName.tempAudio],
              procRunning := true },
     [Sig.progress])

/-- External effect: a subprocess (or `sf.write`) creates file `p`. -/
def fsCreate (p : PathName) (s : PState) : PState :=
  { s with fs := s.fs ++ [p] }

/-- `_on_audio_extract_finished` (lines 386-409).  Note the nonzero-exit
branch emits `error` and `finished(code)` without any cleanup. -/
def audioExtractFinishedH (code : ℤ) (s : PState) : PState × List Sig :=
  if s.isCancelled then (cleanup s, [Sig.cleanupRun, Sig.finished 0])
  else if code ≠ 0 then (s, [Sig.error, Sig.finished code])
  else if 1 / 10 ≤ |s.pitchShift| then
    ({ s with tempFiles := s.tempFiles ++ [PathName.shiftedAudio],
              tempEver := s.tempEver ++ [PathName.shiftedAudio],
              currentStep := "shift_audio" }, [])
  else ({ s with currentStep := "final_merge" }, [])

/-- `_on_shift_finished` (lines 432-446) together with the
`_extract_audio_for_fallback` body (lines 448-472) it invokes on a nonzero
filter exit. -/
def shiftFinishedH (code : ℤ) (s : PState) : PState × List Sig :=
  if s.isCancelled then (cleanup s, [Sig.cleanupRun, Sig.finished 0])
  else if code ≠ 0 then
    ({ s with tempFiles := s.tempFiles ++ [PathName.fallbackRaw],
              tempEver := s.tempEver ++ [PathName.fallbackRaw] },
     [Sig.progress, Sig.progress])
  else ({ s with currentStep := "final_merge" }, [])

/-- `_on_fallback_extract_finished` (lines 479-504).  `fileOk` is the
external `os.path.exists` outcome, `librosaOk` the success of the
in-process librosa pitch shift (which writes the shifted audio file). -/
def fallbackExtractFinishedH (code : ℤ) (fileOk librosaOk : Bool)
    (s : PState) : PState × List Sig :=
  if s.isCancelled then (cleanup s, [Sig.cleanupRun, Sig.finished 0])
  else if code ≠ 0 ∨ !fileOk then
    (cleanup s, [Sig.error, Sig.cleanupRun, Sig.finished 1])
  else if librosaOk then
    ({ (fsCreate PathName.shiftedAudio s) with currentStep := "final_merge" },
     [Sig.progress, Sig.progress])
  else (cleanup s, [Sig.error, Sig.cleanupRun, Sig.finished 1])

/-- `_final_merge` (lines 506-529): append the merge output path to
`temp_files` and spawn the merge subprocess. -/
def finalMergeStartH (s : PState) : PState × List Sig :=
  ({ s with tempFiles := s.tempFiles ++ [PathName.finalMerge],
            tempEver := s.tempEver ++ [PathName.finalMerge] }, [])

/-- `_on_final_merge_finished` (lines 531-548): on success
`os.replace(final_output, output_path)` then `finished(0)`; either way
`_cleanup()` runs only after the `finished` emission. -/
def finalMergeFinishedH (code : ℤ) (s : PState) : PState × List Sig :=
  if s.isCancelled then (cleanup s, [Sig.cleanupRun, Sig.finished 0])
  else if code = 0 then
    let s1 := { s with fs := (s.fs.filter (fun p => !(p == PathName.finalMerge)))
                          ++ [PathName.output] }
    (cleanup s1, [Sig.progress, Sig.finished 0, Sig.cleanupRun])
  else (cleanup s, [Sig.error, Sig.finished code, Sig.cleanupRun])

/-- `_on_process_error` (lines 550-554): QProcess error values 0
(`FailedToStart`) and 1 (`Crashed`) are ignored; anything else is reported
via `error` and `finished(1)`. -/
def onProcessErrorH (code : ℤ) (s : PState) : PState × List Sig :=
  if code = 0 ∨ code = 1 then (s, [])
  else (s, [Sig.error, Sig.finished 1])

/-- The Qt `QProcess.FailedToStart` error value: the process failed to
start (missing executable or insufficient permissions). -/
def QProcessFailedToStart : ℤ := 0

/-- `cancel` (lines 556-579): idempotent; on the first call it sets the
flag, asks the active subprocess to terminate (an asynchronous external
request), closes the write channel, emits a progress message, and emits
`finished(0)` immediately — `_cleanup` is not invoked here. -/
def cancelH (s : PState) : PState × List Sig :=
  if s.isCancelled then (s, [])
  else ({ s with isCancelled := true }, [Sig.progress, Sig.finished 0])

/-- The event alphabet driving the machine: each constructor is one
deferred callback delivery (or one external filesystem effect). -/
inductive Ev
  | start (openOk : Bool)
  | frameTick (readOk : Bool)
  | writeTick
  | encodingFinished (code : ℤ)
  | fileCreate (p : PathName)
  | audioExtractFinished (code : ℤ)
  | shiftFinished (code : ℤ)
  | fallbackExtractFinished (code : ℤ) (fileOk librosaOk : Bool)
  | finalMergeStart
  | finalMergeFinished (code : ℤ)
  | cancelReq
  | processError (code : ℤ)

/-- Dispatch one event to its handler. -/
def stepE : Ev → PState → PState × List Sig
  | Ev.start ok, s => startH ok s
  | Ev.frameTick r, s => processNextFrameH r s
  | Ev.writeTick, s => ((writeBatchH s).1, [])
  | Ev.encodingFinished c, s => encodingFinishedH c s
  | Ev.fileCreate p, s => (fsCreate p s, [])
  | Ev.audioExtractFinished c, s => audioExtractFinishedH c s
  | Ev.shiftFinished c, s => shiftFinishedH c s
  | Ev.fallbackExtractFinished c ok lok, s => fallbackExtractFinishedH c ok lok s
  | Ev.finalMergeStart, s => finalMergeStartH s
  | Ev.finalMergeFinished c, s => finalMergeFinishedH c s
  | Ev.cancelReq, s => cancelH s
  | Ev.processError c, s => onProcessErrorH c s

/-- Run a sequence of events, concatenating the emitted signals. -/
def runE : List Ev → PState → PState × List Sig
  | [], s => (s, [])
  | e :: es, s =>
    let r := stepE e s
    let r2 := runE es r.1
    (r2.1, r.2 ++ r2.2)

end DefaceIt

namespace DefaceIt

/-- A failing run for the temp-artifact invariant: video opens, frames are
exhausted, the encoder exits 0 (appending the temp audio path to
`temp_files`), the extract subprocess creates the temp audio file and then
exits 1. -/
def c1Events : List Ev :=
  [Ev.start true, Ev.frameTick false, Ev.encodingFinished 0,
   Ev.fileCreate PathName.tempAudio, Ev.audioExtractFinished 1]

/-- Claim C1 (code bug).  The claim states that every path appended to
`temp_files` is deleted by the time the job reaches any terminal state.
On the run `c1Events` the job reaches the failure terminal state
(`finished` with exit code 1 is emitted, matching spec section 7's "every
fatal error triggers immediate artifact cleanup"), yet `_cleanup` never
runs and the temp audio path is still in `temp_files` and still on the
filesystem: `_on_audio_extract_finished` (lines 394-397) returns after
`error`/`finished` without cleanup. -/
theorem c1_temp_cleanup_code_bug :
    (runE c1Events init0).2 =
      [Sig.progress, Sig.progress, Sig.progress, Sig.progress,
       Sig.error, Sig.finished 1] ∧
    Sig.cleanupRun ∉ (runE c1Events init0).2 ∧
    PathName.tempAudio ∈ (runE c1Events init0).1.tempEver ∧
    PathName.tempAudio ∈ (runE c1Events init0).1.tempFiles ∧
    PathName.tempAudio ∈ (runE c1Events init0).1.fs := by
  decide

/-- A run in which `cancel()` arrives while frames are being processed. -/
def c2Events : List Ev := [Ev.start true, Ev.cancelReq, Ev.frameTick true]

/-- Claim C2, counterexample.  The claim states that after `cancel()` the
finished signal reports exit code 0 exactly once and only after cleanup
has run.  On `c2Events` the signals are emitted in the order shown:
`finished(0)` is emitted twice — once by `cancel()` itself, before any
cleanup, and once more by the frame callback that observes the flag — and
the first `finished(0)` precedes the only `_cleanup` invocation. -/
theorem c2_cancel_counterexample :
    (runE c2Events init0).2 =
      [Sig.progress, Sig.progress, Sig.progress, Sig.finished 0,
       Sig.cleanupRun, Sig.finished 0] ∧
    ¬((runE c2Events init0).2.count (Sig.finished 0) = 1) ∧
    Sig.cleanupRun ∉ (runE c2Events init0).2.take 4 ∧
    Sig.finished 0 ∈ (runE c2Events init0).2.take 4 := by
  decide

/-- Claim C2, amended.  `cancel()` on a not-yet-cancelled job sets the
flag and immediately emits `finished(0)` exactly once, with nothing on the
error channel and without running cleanup; the next frame callback that
observes the flag then runs `_cleanup` and emits `finished(0)` a second
time; `cancel()` on an already-cancelled job is a no-op. -/
theorem c2_cancel_amended (s : PState) (h : s.isCancelled = false) :
    cancelH s = ({ s with isCancelled := true }, [Sig.progress, Sig.finished 0]) ∧
    (cancelH s).2.count (Sig.finished 0) = 1 ∧
    Sig.error ∉ (cancelH s).2 ∧
    Sig.cleanupRun ∉ (cancelH s).2 ∧
    (∀ r, processNextFrameH r (cancelH s).1 =
      (cleanup (cancelH s).1, [Sig.cleanupRun, Sig.finished 0])) ∧
    (∀ s2 : PState, s2.isCancelled = true → cancelH s2 = (s2, [])) := by
  have e : cancelH s =
      ({ s with isCancelled := true }, [Sig.progress, Sig.finished 0]) := by
    simp [cancelH, h]
  refine ⟨e, ?_, ?_, ?_, ?_, ?_⟩
  · rw [e]
    show List.count (Sig.finished 0) [Sig.progress, Sig.finished 0] = 1
    decide
  · rw [e]
    show Sig.error ∉ [Sig.progress, Sig.finished 0]
    decide
  · rw [e]
    show Sig.cleanupRun ∉ [Sig.progress, Sig.finished 0]
    decide
  · intro r; rw [e]; simp [processNextFrameH]
  · intro s2 h2; simp [cancelH, h2]

/-- Witness for `c2_cancel_amended` at the freshly constructed state. -/
theorem c2_cancel_amended_witness :
    cancelH init0 =
      ({ init0 with isCancelled := true }, [Sig.progress, Sig.finished 0]) :=
  (c2_cancel_amended init0 rfl).1

/-- Claim C8, counterexample.  The claim states that a process-level spawn
failure (executable not found / permission denied, i.e. QProcess error
value `FailedToStart` = 0) is reported once via the error channel.  In
fact `_on_process_error` ignores error values 0 and 1 entirely: nothing is
emitted on any channel. -/
theorem c8_spawn_error_counterexample :
    onProcessErrorH QProcessFailedToStart init0 = (init0, []) ∧
    Sig.error ∉ (onProcessErrorH QProcessFailedToStart init0).2 := by
  decide

/-- Claim C8, amended.  QProcess error values 0 (`FailedToStart`, the
spawn-failure case) and 1 (`Crashed`) are silently ignored by
`_on_process_error`; every other error value is reported exactly once via
the error channel together with `finished(1)`, and nothing is retried (the
handler only emits; it never restarts a process). -/
theorem c8_spawn_error_amended (s : PState) (c : ℤ) :
    (c = 0 ∨ c = 1 → onProcessErrorH c s = (s, [])) ∧
    (¬(c = 0 ∨ c = 1) →
      onProcessErrorH c s = (s, [Sig.error, Sig.finished 1]) ∧
      (onProcessErrorH c s).2.count Sig.error = 1) := by
  constructor
  · intro h; simp [onProcessErrorH, h]
  · intro h
    have e : onProcessErrorH c s = (s, [Sig.error, Sig.finished 1]) := by
      simp [onProcessErrorH, h]
    refine ⟨e, ?_⟩
    rw [e]
    show List.count Sig.error [Sig.error, Sig.finished 1] = 1
    decide

/-- Witness for `c8_spawn_error_amended` at error value 3 (`ReadError`). -/
theorem c8_spawn_error_amended_witness :
    onProcessErrorH 3 init0 = (init0, [Sig.error, Sig.finished 1]) :=
  ((c8_spawn_error_amended init0 3).2 (by decide)).1

/-- Claim C10.  If the cancellation flag is already set when `start()` is
called, `start()` emits `finished(0)` and returns with the state
completely unchanged: no capture is opened, no subprocess is launched, no
temp artifact is created (lines 94-100). -/
theorem c10_start_cancelled (openOk : Bool) (s : PState)
    (h : s.isCancelled = true) :
    startH openOk s = (s, [Sig.finished 0]) := by
  simp [startH, h]

/-- Witness for `c10_start_cancelled`. -/
theorem c10_start_cancelled_witness :
    startH true { init0 with isCancelled := true } =
      ({ init0 with isCancelled := true }, [Sig.finished 0]) :=
  c10_start_cancelled true { init0 with isCancelled := true } rfl

/-- Claim C4.  A batch-writer tick removes at most 5 frames, from the
front of the queue and in FIFO order (the written batch followed by the
remaining queue is exactly the old queue); the frame-production step never
removes queued frames — it at most appends to the back — so the queue
length never decreases outside a drain tick. -/
theorem c4_queue_drain (s : PState) (r : Bool) :
    (writeBatchH s).2.length ≤ 5 ∧
    (writeBatchH s).2 ++ (writeBatchH s).1.frameQueue = s.frameQueue ∧
    (∃ app, (processNextFrameH r s).1.frameQueue = s.frameQueue ++ app) ∧
    s.frameQueue.length ≤ ((processNextFrameH r s).1.frameQueue).length := by
  refine ⟨?_, ?_, ?_, ?_⟩
  · unfold writeBatchH; split
    · simp
    · simp
  · unfold writeBatchH; split
    · simp
    · simp [List.take_append_drop]
  · unfold processNextFrameH cleanup; split_ifs
    · exact ⟨[], by simp⟩
    · exact ⟨[s.frameCount], rfl⟩
    · exact ⟨[s.frameCount], rfl⟩
    · exact ⟨[], by simp⟩
  · unfold processNextFrameH cleanup; split_ifs <;> simp

end DefaceIt

namespace DefaceIt

/-- If two Gaussian capabilities agree at the stored kernel size, the
blurred ROI is the same (the kernel size is the only way `blur_region`
consults the configuration's strength). -/
theorem blurredRoi_gauss_congr (g g' : ℤ → (ℤ → ℤ → ℕ → ℤ) → (ℤ → ℤ → ℕ → ℤ))
    (cfg : BlurrerConfig) (frame : Frame) (B : Box)
    (h : g cfg.blurStrength = g' cfg.blurStrength) :
    blurredRoi g cfg frame B = blurredRoi g' cfg frame B := by
  unfold blurredRoi; split_ifs <;> simp [h]

/-- `blur_region` consults the Gaussian capability only at the stored
kernel size. -/
theorem blurRegion_gauss_congr (g g' : ℤ → (ℤ → ℤ → ℕ → ℤ) → (ℤ → ℤ → ℕ → ℤ))
    (cfg : BlurrerConfig) (frame : Frame) (bb : Box) (p : ℚ)
    (h : g cfg.blurStrength = g' cfg.blurStrength) :
    blurRegion g cfg frame bb p = blurRegion g' cfg frame bb p := by
  simp only [blurRegion]
  split_ifs
  · rfl
  · simp [blurredRoi_gauss_congr g g' cfg frame _ h]

/-- Claim C6.  The stored blur strength is always odd: it equals the
constructor input when that input is odd and input + 1 when it is even
(in particular 20 → 21, 50 → 51, 100 → 101); `initBlurrer` installs
exactly this value, and every Gaussian blur depends on the capability only
through this stored odd kernel size. -/
theorem c6_blur_strength_odd (n : ℤ) (t : String) :
    Odd (storedBlurStrength n) ∧
    (Odd n → storedBlurStrength n = n) ∧
    (Even n → storedBlurStrength n = n + 1) ∧
    storedBlurStrength 20 = 21 ∧
    storedBlurStrength 50 = 51 ∧
    storedBlurStrength 100 = 101 ∧
    (initBlurrer n t).blurStrength = storedBlurStrength n ∧
    (∀ g g' frame bb p, g (storedBlurStrength n) = g' (storedBlurStrength n) →
      blurRegion g (initBlurrer n t) frame bb p =
        blurRegion g' (initBlurrer n t) frame bb p) := by
  refine ⟨?_, ?_, ?_, by decide, by decide, by decide, rfl, ?_⟩
  · rw [Int.odd_iff]; unfold storedBlurStrength; split_ifs with hp <;> omega
  · intro ho; rw [Int.odd_iff] at ho; simp [storedBlurStrength, ho]
  · intro he; rw [Int.even_iff] at he
    unfold storedBlurStrength; split_ifs with hp <;> omega
  · intro g g' frame bb p hg
    exact blurRegion_gauss_congr g g' (initBlurrer n t) frame bb p hg

/-- Witness for `c6_blur_strength_odd`: the even input 20 is stored as 21. -/
theorem c6_blur_strength_odd_witness : storedBlurStrength 20 = 20 + 1 :=
  (c6_blur_strength_odd 20 "gaussian").2.2.1 ⟨10, rfl⟩

/-- Claim C7.  If the padded, clamped box is degenerate (`x2 ≤ x1` or
`y2 ≤ y1`), `blur_region` returns the frame completely unchanged (a total
function: no error is possible). -/
theorem c7_degenerate_box_skip (gauss : ℤ → (ℤ → ℤ → ℕ → ℤ) → (ℤ → ℤ → ℕ → ℤ))
    (cfg : BlurrerConfig) (frame : Frame) (bbox : Box) (padding : ℚ)
    (h : (blurBoxFinal frame.width frame.height bbox padding).x2 ≤
          (blurBoxFinal frame.width frame.height bbox padding).x1 ∨
         (blurBoxFinal frame.width frame.height bbox padding).y2 ≤
          (blurBoxFinal frame.width frame.height bbox padding).y1) :
    blurRegion gauss cfg frame bbox padding = frame := by
  simp only [blurRegion]
  rw [if_pos h]

/-- The Gaussian capability used for concrete instances: constant 1. -/
def gaussConst : ℤ → (ℤ → ℤ → ℕ → ℤ) → (ℤ → ℤ → ℕ → ℤ) :=
  fun _ _ => fun _ _ _ => 1

/-- Gaussian configuration with the default strength 51. -/
def cfgGaussian : BlurrerConfig := initBlurrer 51 "gaussian"

/-- A concrete 200 × 100 frame, constant 0. -/
def cexFrame : Frame :=
  { width := 200, height := 100, channels := 3, data := fun _ _ _ => 0 }

/-- Witness for `c7_degenerate_box_skip`: a zero-width box is skipped. -/
theorem c7_degenerate_box_skip_witness :
    blurRegion gaussConst cfgGaussian cexFrame
      { x1 := 5, y1 := 5, x2 := 5, y2 := 9 } 0 = cexFrame :=
  c7_degenerate_box_skip gaussConst cfgGaussian cexFrame
    { x1 := 5, y1 := 5, x2 := 5, y2 := 9 } 0 (by decide)

/-- `blur_region` never changes the frame dimensions. -/
theorem blurRegion_dims (gauss : ℤ → (ℤ → ℤ → ℕ → ℤ) → (ℤ → ℤ → ℕ → ℤ))
    (cfg : BlurrerConfig) (frame : Frame) (bb : Box) (p : ℚ) :
    (blurRegion gauss cfg frame bb p).width = frame.width ∧
    (blurRegion gauss cfg frame bb p).height = frame.height ∧
    (blurRegion gauss cfg frame bb p).channels = frame.channels := by
  simp only [blurRegion]
  split_ifs <;> exact ⟨rfl, rfl, rfl⟩

/-- One detection step never changes the frame dimensions. -/
theorem processDetection_dims (gauss : ℤ → (ℤ → ℤ → ℕ → ℤ) → (ℤ → ℤ → ℕ → ℤ))
    (cfg : BlurrerConfig) (frame : Frame) (mt : String) (d : Detection) :
    (processDetection gauss cfg frame mt d).width = frame.width ∧
    (processDetection gauss cfg frame mt d).height = frame.height ∧
    (processDetection gauss cfg frame mt d).channels = frame.channels := by
  unfold processDetection
  split_ifs <;> first
    | exact blurRegion_dims gauss cfg frame _ _
    | exact ⟨rfl, rfl, rfl⟩

/-- Folding detections never changes the frame dimensions. -/
theorem detFold_dims (gauss : ℤ → (ℤ → ℤ → ℕ → ℤ) → (ℤ → ℤ → ℕ → ℤ))
    (cfg : BlurrerConfig) (mt : String) (ds : List Detection) (frame : Frame) :
    ((ds.foldl (fun fr d => processDetection gauss cfg fr mt d) frame).width
        = frame.width ∧
      (ds.foldl (fun fr d => processDetection gauss cfg fr mt d) frame).height
        = frame.height ∧
      (ds.foldl (fun fr d => processDetection gauss cfg fr mt d) frame).channels
        = frame.channels) := by
  induction ds generalizing frame with
  | nil => exact ⟨rfl, rfl, rfl⟩
  | cons d ds ih =>
    simp only [List.foldl_cons]
    obtain ⟨h1, h2, h3⟩ := ih (processDetection gauss cfg frame mt d)
    obtain ⟨g1, g2, g3⟩ := processDetection_dims gauss cfg frame mt d
    exact ⟨h1.trans g1, h2.trans g2, h3.trans g3⟩

/-- `process_frame` never changes the frame dimensions. -/
theorem processFrame_dims (gauss : ℤ → (ℤ → ℤ → ℕ → ℤ) → (ℤ → ℤ → ℕ → ℤ))
    (cfg : BlurrerConfig) (models : List (String × List Detection))
    (frame : Frame) :
    (processFrame gauss cfg models frame).width = frame.width ∧
    (processFrame gauss cfg models frame).height = frame.height ∧
    (processFrame gauss cfg models frame).channels = frame.channels := by
  induction models generalizing frame with
  | nil => exact ⟨rfl, rfl, rfl⟩
  | cons m ms ih =>
    simp only [processFrame, List.foldl_cons]
    obtain ⟨h1, h2, h3⟩ :=
      ih (m.2.foldl (fun fr2 d => processDetection gauss cfg fr2 m.1 d) frame)
    obtain ⟨g1, g2, g3⟩ := detFold_dims gauss cfg m.1 m.2 frame
    exact ⟨h1.trans g1, h2.trans g2, h3.trans g3⟩

/-- Claim C9.  For any frame with positive dimensions and any integer box
(including boxes outside the frame), `blur_region` and `process_frame`
preserve width, height and channel count, and the clamped sub-region used
for indexing lies inside `[0, width] × [0, height]`; when it is
non-degenerate the indices are strictly ordered. -/
theorem c9_dims_and_bounds (gauss : ℤ → (ℤ → ℤ → ℕ → ℤ) → (ℤ → ℤ → ℕ → ℤ))
    (cfg : BlurrerConfig) (frame : Frame) (bb : Box) (p : ℚ)
    (models : List (String × List Detection))
    (_hw : 0 < frame.width) (_hh : 0 < frame.height) :
    (blurRegion gauss cfg frame bb p).width = frame.width ∧
    (blurRegion gauss cfg frame bb p).height = frame.height ∧
    (blurRegion gauss cfg frame bb p).channels = frame.channels ∧
    (processFrame gauss cfg models frame).width = frame.width ∧
    (processFrame gauss cfg models frame).height = frame.height ∧
    (processFrame gauss cfg models frame).channels = frame.channels ∧
    0 ≤ (blurBoxFinal frame.width frame.height bb p).x1 ∧
    (blurBoxFinal frame.width frame.height bb p).x2 ≤ (frame.width : ℤ) ∧
    0 ≤ (blurBoxFinal frame.width frame.height bb p).y1 ∧
    (blurBoxFinal frame.width frame.height bb p).y2 ≤ (frame.height : ℤ) ∧
    (¬((blurBoxFinal frame.width frame.height bb p).x2 ≤
          (blurBoxFinal frame.width frame.height bb p).x1 ∨
        (blurBoxFinal frame.width frame.height bb p).y2 ≤
          (blurBoxFinal frame.width frame.height bb p).y1) →
      (blurBoxFinal frame.width frame.height bb p).x1 <
          (blurBoxFinal frame.width frame.height bb p).x2 ∧
        (blurBoxFinal frame.width frame.height bb p).y1 <
          (blurBoxFinal frame.width frame.height bb p).y2) := by
  obtain ⟨b1, b2, b3⟩ := blurRegion_dims gauss cfg frame bb p
  obtain ⟨f1, f2, f3⟩ := processFrame_dims gauss cfg models frame
  refine ⟨b1, b2, b3, f1, f2, f3, ?_, ?_, ?_, ?_, ?_⟩
  · simp [blurBoxFinal, clampBox]
  · simp [blurBoxFinal, clampBox]
  · simp [blurBoxFinal, clampBox]
  · simp [blurBoxFinal, clampBox]
  · intro hnd
    push_neg at hnd
    exact hnd

/-- Witness for `c9_dims_and_bounds` at a box sticking out of the frame. -/
theorem c9_dims_and_bounds_witness :
    (blurRegion gaussConst cfgGaussian cexFrame
        { x1 := -5, y1 := -5, x2 := 300, y2 := 50 } 0).width = cexFrame.width :=
  (c9_dims_and_bounds gaussConst cfgGaussian cexFrame
    { x1 := -5, y1 := -5, x2 := 300, y2 := 50 } 0 [] (by decide) (by decide)).1

end DefaceIt

namespace DefaceIt

/-- The concrete person box used for the face-geometry counterexample. -/
def cexBox : Box := { x1 := 0, y1 := 0, x2 := 100, y2 := 100 }

/-- The frame after processing the single class-0 face detection. -/
def cexOut : Frame :=
  processDetection gaussConst cfgGaussian cexFrame "face"
    { cls := 0, box := cexBox }

/-- Claim C3, counterexample.  The claim computes the padding from the
widened box before any clamping and intersects with the frame bounds only
at the end (`specFaceBox`); the code clamps the widened ends to the frame
first (line 181-182) and computes the padding from the clamped box, so for
a 100-wide box at the left edge of a 200 × 100 frame the claimed region
ends at x = 134 while the code's region ends at x = 132: column 133 lies
in the claimed region yet is byte-identical to the input, while column 131
is genuinely rewritten. -/
theorem c3_face_region_counterexample :
    specFaceBox 200 100 cexBox facePadding =
      { x1 := 0, y1 := 0, x2 := 134, y2 := 60 } ∧
    faceRegion 200 100 cexBox = { x1 := 0, y1 := 0, x2 := 132, y2 := 60 } ∧
    specFaceBox 200 100 cexBox facePadding ≠ faceRegion 200 100 cexBox ∧
    (specFaceBox 200 100 cexBox facePadding).x1 ≤ 133 ∧
    (133 : ℤ) < (specFaceBox 200 100 cexBox facePadding).x2 ∧
    cexOut.data 10 133 0 = cexFrame.data 10 133 0 ∧
    cexOut.data 10 131 0 ≠ cexFrame.data 10 131 0 := by
  decide

/-- Claim C3, amended.  For a face-category detection of class 0, the
region `process_frame` rewrites is exactly `faceRegion`: the upper 50% of
the box height, widened horizontally by 10% of the box width on each side
with the widened ends clamped to the frame bounds first, then expanded by
the configured face padding fraction of the clamped widened box, clamped
again to the frame bounds.  Every pixel outside that region is
byte-identical to the input; every pixel inside it carries the blurred ROI
value. -/
theorem c3_face_region_amended (gauss : ℤ → (ℤ → ℤ → ℕ → ℤ) → (ℤ → ℤ → ℕ → ℤ))
    (cfg : BlurrerConfig) (frame : Frame) (b : Box) (y x : ℤ) (c : ℕ) :
    (¬((faceRegion frame.width frame.height b).x1 ≤ x ∧
        x < (faceRegion frame.width frame.height b).x2 ∧
        (faceRegion frame.width frame.height b).y1 ≤ y ∧
        y < (faceRegion frame.width frame.height b).y2) →
      (processDetection gauss cfg frame "face" { cls := 0, box := b }).data y x c
        = frame.data y x c) ∧
    (((faceRegion frame.width frame.height b).x1 ≤ x ∧
        x < (faceRegion frame.width frame.height b).x2 ∧
        (faceRegion frame.width frame.height b).y1 ≤ y ∧
        y < (faceRegion frame.width frame.height b).y2) →
      (processDetection gauss cfg frame "face" { cls := 0, box := b }).data y x c
        = blurredRoi gauss cfg frame (faceRegion frame.width frame.height b)
            (y - (faceRegion frame.width frame.height b).y1)
            (x - (faceRegion frame.width frame.height b).x1) c) := by
  have hpd : processDetection gauss cfg frame "face" { cls := 0, box := b } =
      blurRegion gauss cfg frame (faceBox frame.width b) facePadding := by
    simp [processDetection]
  rw [hpd]
  simp only [faceRegion, blurRegion]
  split_ifs with hdeg
  · refine ⟨fun _ => rfl, fun hin => ?_⟩
    exfalso
    obtain ⟨h1, h2, h3, h4⟩ := hin
    rcases hdeg with h | h <;> omega
  · constructor
    · intro hout
      exact if_neg hout
    · intro hin
      exact if_pos hin

/-- Witness for `c3_face_region_amended`: inside the region the output is
the blurred ROI value. -/
theorem c3_face_region_amended_witness :
    cexOut.data 10 131 0 =
      blurredRoi gaussConst cfgGaussian cexFrame
        (faceRegion cexFrame.width cexFrame.height cexBox)
        (10 - (faceRegion cexFrame.width cexFrame.height cexBox).y1)
        (131 - (faceRegion cexFrame.width cexFrame.height cexBox).x1) 0 :=
  (c3_face_region_amended gaussConst cfgGaussian cexFrame cexBox 10 131 0).2
    (by decide)

end DefaceIt

namespace DefaceIt

/-- Rounding an integer-valued interpolation result is the identity. -/
theorem roundQ_intCast (v : ℤ) : roundQ ((v : ℚ)) = v := by
  unfold roundQ
  rw [Int.floor_eq_iff]
  constructor
  · norm_num
  · norm_num

/-- A one-axis interpolation whose two sample points carry the same value
returns that value. -/
theorem lerp1_const_at (n m : ℕ) (g : ℕ → ℚ) (i : ℕ) (v : ℚ)
    (h0 : g (srcFloor n m i) = v)
    (h1 : g (min (srcFloor n m i + 1) (n - 1)) = v) :
    lerp1 n m g i = v := by
  unfold lerp1
  rw [h0, h1]
  ring

/-- The downsampled axis length `max 1 (n/10)` is either 1 or at least 2
with ten copies fitting into `n`. -/
theorem maxDiv_cases (n : ℕ) :
    max 1 (n / 10) = 1 ∨ (2 ≤ max 1 (n / 10) ∧ 10 * max 1 (n / 10) ≤ n) := by
  rcases le_or_lt (n / 10) 1 with hle | hgt
  · left; exact max_eq_left hle
  · right
    have hmax : max 1 (n / 10) = n / 10 := max_eq_right (by omega)
    constructor
    · rw [hmax]; omega
    · rw [hmax]
      have := Nat.div_mul_le_self n 10
      omega

/-- Key geometric fact: both bilinear sample indices chosen by the
downsample at destination cell `i` lie inside nearest-upsample block `i`,
i.e. they map back to `i` under the INTER_NEAREST source map `· * m / n`. -/
theorem srcIdx_maps_back (n m : ℕ) (hn : 0 < n)
    (hm : m = 1 ∨ (2 ≤ m ∧ 10 * m ≤ n)) (i : ℕ) (hi : i < m) :
    srcFloor n m i * m / n = i ∧
    min (srcFloor n m i + 1) (n - 1) * m / n = i := by
  rcases hm with h1 | hrest
  · subst h1
    have h0 : i = 0 := by omega
    subst h0
    constructor
    · rw [Nat.mul_one]
      apply Nat.div_eq_of_lt
      unfold srcFloor
      omega
    · rw [Nat.mul_one]
      apply Nat.div_eq_of_lt
      have hmin : min (srcFloor n 1 0 + 1) (n - 1) ≤ n - 1 := min_le_right _ _
      omega
  · obtain ⟨h2, h10⟩ := hrest
    have hmn : m ≤ (2 * i + 1) * n :=
      calc m ≤ n := by omega
        _ = 1 * n := (Nat.one_mul n).symm
        _ ≤ (2 * i + 1) * n := Nat.mul_le_mul_right n (by omega)
    have key := Nat.div_add_mod ((2 * i + 1) * n - m) (2 * m)
    have hr : ((2 * i + 1) * n - m) % (2 * m) < 2 * m :=
      Nat.mod_lt _ (by omega)
    have key2 : 2 * m * (((2 * i + 1) * n - m) / (2 * m)) +
        ((2 * i + 1) * n - m) % (2 * m) + m = 2 * (i * n) + n := by
      calc 2 * m * (((2 * i + 1) * n - m) / (2 * m)) +
            ((2 * i + 1) * n - m) % (2 * m) + m
          = ((2 * i + 1) * n - m) + m := by rw [key]
        _ = (2 * i + 1) * n := Nat.sub_add_cancel hmn
        _ = 2 * (i * n) + n := by ring
    have hq : srcFloor n m i = ((2 * i + 1) * n - m) / (2 * m) := rfl
    set q := ((2 * i + 1) * n - m) / (2 * m) with hqdef
    set r := ((2 * i + 1) * n - m) % (2 * m) with hrdef
    have G1 : i * n < q * m := by linarith [key2, hr, h10, h2]
    have G2 : (q + 1) * m < (i + 1) * n := by linarith [key2, hr, h10, h2]
    have G4 : q + 1 ≤ n - 1 := by
      have hin1 : (i + 1) * n ≤ m * n := Nat.mul_le_mul_right n (by omega)
      have hlt : (q + 1) * m < n * m := by
        calc (q + 1) * m < (i + 1) * n := G2
          _ ≤ m * n := hin1
          _ = n * m := Nat.mul_comm m n
      have hqn : q + 1 < n := lt_of_mul_lt_mul_right hlt (Nat.zero_le m)
      omega
    have hqm : q * m ≤ (q + 1) * m := Nat.mul_le_mul_right m (Nat.le_succ q)
    constructor
    · rw [hq]
      exact Nat.div_eq_of_lt_le (le_of_lt G1) (lt_of_le_of_lt hqm G2)
    · rw [hq, min_eq_left G4]
      exact Nat.div_eq_of_lt_le (le_trans (le_of_lt G1) hqm) G2

/-- Downsampling a pixelated channel reproduces the pixelated channel's
block values: all four bilinear sample points of destination cell `(j, i)`
lie inside nearest-neighbour block `(j, i)`. -/
theorem downsample_pixelate_eq (w h : ℕ) (f : ℕ → ℕ → ℤ) (j i : ℕ)
    (hw : 0 < w) (hh : 0 < h)
    (hj : j < max 1 (h / 10)) (hi : i < max 1 (w / 10)) :
    downsampleChan w h (max 1 (w / 10)) (max 1 (h / 10)) (pixelateChan w h f) j i
      = downsampleChan w h (max 1 (w / 10)) (max 1 (h / 10)) f j i := by
  obtain ⟨hx0, hx1⟩ := srcIdx_maps_back w (max 1 (w / 10)) hw (maxDiv_cases w) i hi
  obtain ⟨hy0, hy1⟩ := srcIdx_maps_back h (max 1 (h / 10)) hh (maxDiv_cases h) j hj
  have hrow : ∀ y : ℕ, y * max 1 (h / 10) / h = j →
      lerp1 w (max 1 (w / 10))
        (fun x => ((pixelateChan w h f y x : ℤ) : ℚ)) i
        = ((downsampleChan w h (max 1 (w / 10)) (max 1 (h / 10)) f j i : ℤ) : ℚ) := by
    intro y hyj
    apply lerp1_const_at
    · show ((pixelateChan w h f y (srcFloor w (max 1 (w / 10)) i) : ℤ) : ℚ) = _
      congr 1
      show downsampleChan w h (max 1 (w / 10)) (max 1 (h / 10)) f
          (y * max 1 (h / 10) / h)
          (srcFloor w (max 1 (w / 10)) i * max 1 (w / 10) / w) = _
      rw [hyj, hx0]
    · show ((pixelateChan w h f y
          (min (srcFloor w (max 1 (w / 10)) i + 1) (w - 1)) : ℤ) : ℚ) = _
      congr 1
      show downsampleChan w h (max 1 (w / 10)) (max 1 (h / 10)) f
          (y * max 1 (h / 10) / h)
          (min (srcFloor w (max 1 (w / 10)) i + 1) (w - 1) * max 1 (w / 10) / w) = _
      rw [hyj, hx1]
  have hall : lerp1 h (max 1 (h / 10))
      (fun y => lerp1 w (max 1 (w / 10))
        (fun x => ((pixelateChan w h f y x : ℤ) : ℚ)) i) j
      = ((downsampleChan w h (max 1 (w / 10)) (max 1 (h / 10)) f j i : ℤ) : ℚ) := by
    apply lerp1_const_at
    · exact hrow _ hy0
    · exact hrow _ hy1
  show roundQ (lerp1 h (max 1 (h / 10))
      (fun y => lerp1 w (max 1 (w / 10))
        (fun x => ((pixelateChan w h f y x : ℤ) : ℚ)) i) j)
      = downsampleChan w h (max 1 (w / 10)) (max 1 (h / 10)) f j i
  rw [hall]
  exact roundQ_intCast _

/-- Claim C5.  The pixelate transformation of lines 152-155 (downsample to
`max 1 (w/10) × max 1 (h/10)` with linear interpolation, upsample back
with nearest-neighbour interpolation) is idempotent at the same downsample
factor: applying it twice agrees pixel-for-pixel with applying it once,
on every pixel of the sub-region. -/
theorem c5_pixelate_idempotent (w h : ℕ) (f : ℕ → ℕ → ℤ) (y x : ℕ)
    (hy : y < h) (hx : x < w) :
    pixelateChan w h (pixelateChan w h f) y x = pixelateChan w h f y x := by
  have hh : 0 < h := lt_of_le_of_lt (Nat.zero_le y) hy
  have hw : 0 < w := lt_of_le_of_lt (Nat.zero_le x) hx
  have hshpos : 0 < max 1 (h / 10) :=
    lt_of_lt_of_le Nat.zero_lt_one (le_max_left 1 (h / 10))
  have hswpos : 0 < max 1 (w / 10) :=
    lt_of_lt_of_le Nat.zero_lt_one (le_max_left 1 (w / 10))
  have hj : y * max 1 (h / 10) / h < max 1 (h / 10) := by
    rw [Nat.div_lt_iff_lt_mul hh]
    calc y * max 1 (h / 10) < h * max 1 (h / 10) :=
          mul_lt_mul_of_pos_right hy hshpos
      _ = max 1 (h / 10) * h := Nat.mul_comm h (max 1 (h / 10))
  have hi : x * max 1 (w / 10) / w < max 1 (w / 10) := by
    rw [Nat.div_lt_iff_lt_mul hw]
    calc x * max 1 (w / 10) < w * max 1 (w / 10) :=
          mul_lt_mul_of_pos_right hx hswpos
      _ = max 1 (w / 10) * w := Nat.mul_comm w (max 1 (w / 10))
  show downsampleChan w h (max 1 (w / 10)) (max 1 (h / 10)) (pixelateChan w h f)
      (y * max 1 (h / 10) / h) (x * max 1 (w / 10) / w)
    = downsampleChan w h (max 1 (w / 10)) (max 1 (h / 10)) f
      (y * max 1 (h / 10) / h) (x * max 1 (w / 10) / w)
  exact downsample_pixelate_eq w h f _ _ hw hh hj hi

/-- A concrete 3 × 3 channel for the idempotence witness. -/
def c5f : ℕ → ℕ → ℤ := fun y x => (y : ℤ) * 3 + (x : ℤ)

/-- Witness for `c5_pixelate_idempotent` on a 3 × 3 sub-region. -/
theorem c5_pixelate_idempotent_witness :
    pixelateChan 3 3 (pixelateChan 3 3 c5f) 1 2 = pixelateChan 3 3 c5f 1 2 :=
  c5_pixelate_idempotent 3 3 c5f 1 2 (by decide) (by decide)

end DefaceIt
